import Mathlib

/-!
Shallow embedding of the MyImageCompressor codec engine (Rust sources under
`src/RUST/src/`): the `Jpeg2000Codec` (transform container), the `JpegLsCodec`
(prediction container), the `UncompressedCodec` passthrough, and the shared
`Codec` trait surface, together with theorems settling the frozen claims.

Bytes are modelled as `Nat` values `< 256`; 16-bit samples as `Nat < 65536`.
Rust wrapping arithmetic (`wrapping_sub`, `wrapping_add`, `as u8`, `as i8`,
`as u16`, `as i16`) is expressed with explicit `% 256` / `% 65536` and, where
the source reinterprets a byte as signed, with an explicit two's-complement
view into `ℤ`.  Rust's signed `/` (truncation toward zero) is `Int.tdiv`.
Fallible operations return `Except MedImgError`.  Loops that are not
structurally recursive in the source (the marker scans) are given explicit
fuel equal to the buffer length, which strictly bounds their iteration count.
-/

namespace MedImg

/-- Error taxonomy from `src/error/mod.rs` (only the variants the codec core
produces are modelled). -/
inductive MedImgError where
  | ImageData (msg : String)
  | Codec (msg : String)
deriving DecidableEq, Repr

/-- `Result<T>` from the source. -/
abbrev Result (α : Type) := Except MedImgError α

instance {α : Type} [DecidableEq α] : DecidableEq (Result α) := fun a b =>
  match a, b with
  | .ok x, .ok y => decidable_of_iff (x = y) (by simp)
  | .ok _, .error _ => .isFalse (by simp)
  | .error _, .ok _ => .isFalse (by simp)
  | .error e, .error f => decidable_of_iff (e = f) (by simp)

/-- `ImageData` from `src/lib.rs`: a raster pixel buffer. -/
structure ImageData where
  width : Nat
  height : Nat
  bits_per_sample : Nat
  samples_per_pixel : Nat
  pixel_data : List Nat
  photometric_interpretation : String
  is_signed : Bool
deriving DecidableEq, Repr

/-- `CompressionMode` from `src/config/mod.rs`. -/
inductive CompressionMode where
  | Lossless
  | Lossy
  | NearLossless
deriving DecidableEq, Repr

/-- `CompressionCodec` from `src/config/mod.rs`. -/
inductive CompressionCodec where
  | Jpeg2000
  | JpegLs
  | Uncompressed
deriving DecidableEq, Repr

/-- `CompressionConfig` from `src/config/mod.rs`, restricted to the fields the
codec core reads.  `target_ratio` is an `Option<f32>` in the source; it is
modelled as an `Option ℚ` and only consumed through `quant_bits_of_ratio`. -/
structure CompressionConfig where
  codec : CompressionCodec
  mode : CompressionMode
  target_ratio : Option ℚ
  quality_layers : Nat
  near_lossless_error : Nat
deriving DecidableEq, Repr

/-- `CodecCapabilities` from `src/codec/traits.rs`. -/
structure CodecCapabilities where
  max_bits_per_sample : Nat
  supports_signed : Bool
  supports_color : Bool
  supports_multiframe : Bool
deriving DecidableEq, Repr

/-- Default `Codec::can_encode` from `src/codec/traits.rs` lines 80-85. -/
def can_encode (caps : CodecCapabilities) (image : ImageData) : Bool :=
  decide (image.bits_per_sample ≤ caps.max_bits_per_sample)
    && (decide (image.samples_per_pixel = 1) || caps.supports_color)
    && (!image.is_signed || caps.supports_signed)

/-- Capabilities returned by `Jpeg2000Codec::capabilities`. -/
def jpeg2000_capabilities : CodecCapabilities :=
  { max_bits_per_sample := 16, supports_signed := true,
    supports_color := true, supports_multiframe := true }

/-- Capabilities returned by `JpegLsCodec::capabilities`. -/
def jpegls_capabilities : CodecCapabilities :=
  { max_bits_per_sample := 16, supports_signed := true,
    supports_color := true, supports_multiframe := true }

/-- Capabilities returned by `UncompressedCodec::capabilities`. -/
def uncompressed_capabilities : CodecCapabilities :=
  { max_bits_per_sample := 16, supports_signed := true,
    supports_color := true, supports_multiframe := true }

/-- `(n as u16).to_be_bytes()`: truncate to 16 bits, big-endian bytes. -/
def u16be (n : Nat) : List Nat := [n / 256 % 256, n % 256]

/-- `(n as u32).to_be_bytes()`: truncate to 32 bits, big-endian bytes. -/
def u32be (n : Nat) : List Nat :=
  [n / 16777216 % 256, n / 65536 % 256, n / 256 % 256, n % 256]

/-- `u16::from_le_bytes([lo, hi])`. -/
def fromLE (lo hi : Nat) : Nat := lo + 256 * hi

/-- `ImageData::expected_size` / `Jpeg2000Codec::calculate_expected_size`:
`width * height * samples_per_pixel * ((bits_per_sample + 7) / 8)`. -/
def calculate_expected_size (image : ImageData) : Nat :=
  image.width * image.height * image.samples_per_pixel *
    ((image.bits_per_sample + 7) / 8)

/-! ## Jpeg2000Codec (`src/codec/jpeg2000.rs`) -/

/-- The component `Ssiz` byte of the SIZ segment: `bits_per_sample - 1` as
`u8`, with the 0x80 sign bit or-ed in when `is_signed` (u16 wrapping
subtraction, then truncation to a byte, as in the source casts). -/
def ssiz_byte (image : ImageData) : Nat :=
  let base := (image.bits_per_sample + 65535) % 65536 % 256
  if image.is_signed then Nat.lor 128 base else base

/-- `Jpeg2000Codec::create_siz_segment`. -/
def create_siz_segment (image : ImageData) : List Nat :=
  [0xFF, 0x51]
    ++ u16be (38 + 3 * image.samples_per_pixel)
    ++ [0x00, 0x00]
    ++ u32be image.width ++ u32be image.height
    ++ [0x00, 0x00, 0x00, 0x00] ++ [0x00, 0x00, 0x00, 0x00]
    ++ u32be image.width ++ u32be image.height
    ++ [0x00, 0x00, 0x00, 0x00] ++ [0x00, 0x00, 0x00, 0x00]
    ++ u16be image.samples_per_pixel
    ++ (List.replicate image.samples_per_pixel
          [ssiz_byte image, 0x01, 0x01]).flatten

/-- `Jpeg2000Codec::create_cod_segment`. -/
def create_cod_segment (config : CompressionConfig) : List Nat :=
  [0xFF, 0x52, 0x00, 0x0C, 0x00, 0x00]
    ++ u16be config.quality_layers
    ++ [0x00, 0x05, 0x04, 0x04, 0x00,
        if config.mode = CompressionMode.Lossless then 0x01 else 0x00]

/-- `Jpeg2000Codec::create_qcd_segment`. -/
def create_qcd_segment (config : CompressionConfig) : List Nat :=
  if config.mode = CompressionMode.Lossless then
    [0xFF, 0x5C, 0x00, 0x04, 0x22, 0x00]
  else
    [0xFF, 0x5C, 0x00, 0x05, 0x42, 0x00, 0x88]

/-- Tail of the 8-bit delta loop in `Jpeg2000Codec::lossless_encode`:
`prev` is the previous byte, each output byte is `data[i].wrapping_sub(prev)`.
The source iterates by index; consuming the list one byte at a time is the
same traversal. -/
def delta8_go (prev : Nat) : List Nat → List Nat
  | [] => []
  | x :: t => (x + 256 - prev) % 256 :: delta8_go x t

/-- 8-bit branch of `Jpeg2000Codec::lossless_encode`: first byte verbatim,
then wrapping deltas of consecutive bytes. -/
def delta8 : List Nat → List Nat
  | [] => []
  | x :: t => x :: delta8_go x t

/-- Tail of the 16-bit delta loop in `Jpeg2000Codec::lossless_encode`:
consumes little-endian byte pairs; `prev` is the previous 16-bit sample.
A trailing odd byte is dropped, as the source's `samples = len / 2` does. -/
def delta16_go (prev : Nat) : List Nat → List Nat
  | b0 :: b1 :: t =>
      (fromLE b0 b1 + 65536 - prev) % 65536 % 256
        :: (fromLE b0 b1 + 65536 - prev) % 65536 / 256
        :: delta16_go (fromLE b0 b1) t
  | _ => []

/-- 16-bit branch of `Jpeg2000Codec::lossless_encode`: first two bytes
verbatim, then wrapping 16-bit deltas in little-endian bytes. -/
def delta16 : List Nat → List Nat
  | b0 :: b1 :: t => b0 :: b1 :: delta16_go (fromLE b0 b1) t
  | _ => []

/-- `Jpeg2000Codec::lossless_encode`. -/
def lossless_encode (data : List Nat) (bits_per_sample : Nat) : List Nat :=
  if bits_per_sample ≤ 8 then delta8 data else delta16 data

/-- The `((target_ratio.log2() * 0.5) as u8)` computation of
`Jpeg2000Codec::lossy_encode` is `f32` arithmetic, outside the embedding.
It is modelled only at the ratio the claims exercise: `log2 10 * 0.5 ≈ 1.66`
truncates to `1`.  Other ratios are mapped to `0`; no claim depends on them. -/
def quant_bits_of_ratio (ratio : ℚ) : Nat :=
  if ratio = 10 then 1 else 0

/-- 16-bit right-shift loop of `Jpeg2000Codec::lossy_encode`: consumes
little-endian byte pairs, shifts each sample right by `s`, re-emits
little-endian bytes; a trailing odd byte is dropped (`chunk.len() == 2`). -/
def shr16_pairs (s : Nat) : List Nat → List Nat
  | b0 :: b1 :: t =>
      fromLE b0 b1 / 2 ^ s % 256 :: fromLE b0 b1 / 2 ^ s / 256
        :: shr16_pairs s t
  | _ => []

/-- `Jpeg2000Codec::lossy_encode`: leading `quant_bits` byte, then every
sample right-shifted (`min` clamps as in the source). -/
def lossy_encode (data : List Nat) (bits_per_sample : Nat) (target_ratio : ℚ) :
    List Nat :=
  let quant_bits :=
    min (quant_bits_of_ratio target_ratio) ((bits_per_sample % 256 + 255) % 256)
  let shift := quant_bits
  quant_bits ::
    (if bits_per_sample ≤ 8 then
      data.map (fun b => b / 2 ^ (min shift 7))
    else
      shr16_pairs (min shift 15) data)

/-- `Jpeg2000Codec::compress_tile_data`. -/
def compress_tile_data (image : ImageData) (config : CompressionConfig) :
    List Nat :=
  if config.mode = CompressionMode.Lossless then
    lossless_encode image.pixel_data image.bits_per_sample
  else
    lossy_encode image.pixel_data image.bits_per_sample
      (config.target_ratio.getD 10)

/-- `Jpeg2000Codec::create_j2k_codestream` (the inner `Result` is always `Ok`
in the source, so the stream is built directly). -/
def create_j2k_codestream (image : ImageData) (config : CompressionConfig) :
    List Nat :=
  [0xFF, 0x4F]
    ++ create_siz_segment image
    ++ create_cod_segment config
    ++ create_qcd_segment config
    ++ [0xFF, 0x90]
    ++ u16be (10 + image.pixel_data.length)
    ++ [0x00, 0x00]
    ++ u32be (10 + image.pixel_data.length)
    ++ [0x00, 0x01]
    ++ [0xFF, 0x93]
    ++ compress_tile_data image config
    ++ [0xFF, 0xD9]

/-- `Jpeg2000Codec::encode_j2k` (= `Jpeg2000Codec::encode`): geometry
validation, then codestream construction. -/
def encode_j2k (image : ImageData) (config : CompressionConfig) :
    Result (List Nat) :=
  if image.width = 0 ∨ image.height = 0 then
    .error (.ImageData "Invalid image dimensions")
  else if image.pixel_data = [] then
    .error (.ImageData "Empty pixel data")
  else if image.pixel_data.length < calculate_expected_size image then
    .error (.ImageData "Pixel data size mismatch")
  else
    .ok (create_j2k_codestream image config)

/-- The SOD-marker scan of `Jpeg2000Codec::decode_j2k`: from `pos`, advance
until `data[pos] = 0xFF` and `data[pos+1] = 0x93`, returning the position
just past the marker; if the loop guard `pos < data.len() - 1` fails first,
return the final `pos`.  `fuel` bounds iterations; callers pass
`data.length`, which the loop can never exhaust since `pos` starts at 2 and
increases every step. -/
def sod_scan (data : List Nat) : Nat → Nat → Nat
  | 0, pos => pos
  | fuel + 1, pos =>
    if pos < data.length - 1 then
      if data.getD pos 0 = 0xFF ∧ data.getD (pos + 1) 0 = 0x93 then pos + 2
      else sod_scan data fuel (pos + 1)
    else pos

/-- Prefix-sum tail of the 8-bit branch of `Jpeg2000Codec::lossless_decode`. -/
def sum8_go (prev : Nat) : List Nat → List Nat
  | [] => []
  | x :: t => (prev + x) % 256 :: sum8_go ((prev + x) % 256) t

/-- 8-bit branch of `Jpeg2000Codec::lossless_decode`. -/
def sum8 : List Nat → List Nat
  | [] => []
  | x :: t => x :: sum8_go x t

/-- Prefix-sum tail of the 16-bit branch of `Jpeg2000Codec::lossless_decode`
(little-endian byte pairs, wrapping 16-bit addition). -/
def sum16_go (prev : Nat) : List Nat → List Nat
  | b0 :: b1 :: t =>
      (prev + fromLE b0 b1) % 65536 % 256
        :: (prev + fromLE b0 b1) % 65536 / 256
        :: sum16_go ((prev + fromLE b0 b1) % 65536) t
  | _ => []

/-- 16-bit branch of `Jpeg2000Codec::lossless_decode`. -/
def sum16 : List Nat → List Nat
  | b0 :: b1 :: t => b0 :: b1 :: sum16_go (fromLE b0 b1) t
  | _ => []

/-- `Jpeg2000Codec::lossless_decode`. -/
def lossless_decode (data : List Nat) (bits_per_sample : Nat) : List Nat :=
  if bits_per_sample ≤ 8 then sum8 data else sum16 data

/-- 16-bit left-shift loop of `Jpeg2000Codec::lossy_decode` (`u16` shift
discards overflowing bits: `% 65536`). -/
def shl16_pairs (s : Nat) : List Nat → List Nat
  | b0 :: b1 :: t =>
      fromLE b0 b1 * 2 ^ s % 65536 % 256
        :: fromLE b0 b1 * 2 ^ s % 65536 / 256
        :: shl16_pairs s t
  | _ => []

/-- `Jpeg2000Codec::lossy_decode`: read the leading `quant_bits` byte, then
left-shift every remaining sample (u8/u16 shifts wrap at the sample width). -/
def lossy_decode (data : List Nat) (bits_per_sample : Nat) : List Nat :=
  match data with
  | [] => []
  | q :: rest =>
    let shift := min q 15
    if bits_per_sample ≤ 8 then
      rest.map (fun b => b * 2 ^ (min shift 7) % 256)
    else
      shl16_pairs (min shift 15) rest

/-- `Jpeg2000Codec::decode_j2k`.  The final expected-size comparison in the
source only emits `log::warn!`; it does not affect the returned value, so the
`expected_size` binding below is dead, exactly as in the source. -/
def decode_j2k (data : List Nat) (width height bits_per_sample
    samples_per_pixel : Nat) : Result (List Nat) :=
  if data.length < 4 then
    .error (.Codec "Invalid J2K data: too short")
  else if ¬(data.getD 0 0 = 0xFF ∧ data.getD 1 0 = 0x4F) then
    .error (.Codec "Invalid J2K data: missing SOC marker")
  else
    let pos := sod_scan data data.length 2
    let dend :=
      if 2 ≤ data.length ∧ data.getD (data.length - 2) 0 = 0xFF ∧
          data.getD (data.length - 1) 0 = 0xD9 then
        data.length - 2
      else data.length
    if pos ≥ dend then
      .error (.Codec "Invalid J2K data: no tile data found")
    else
      let compressed := (data.drop pos).take (dend - pos)
      let decoded :=
        if compressed ≠ [] ∧ compressed.getD 0 0 < 16 then
          lossy_decode compressed bits_per_sample
        else
          lossless_decode compressed bits_per_sample
      let _expected := calculate_expected_size
        ⟨width, height, bits_per_sample, samples_per_pixel, [], "", false⟩
      .ok decoded

/-- `Jpeg2000Codec::decode` (trait impl): wrap the decoded bytes in a fresh
`ImageData` with empty photometric interpretation and `is_signed = false`. -/
def jpeg2000_decode (data : List Nat) (width height bits_per_sample
    samples_per_pixel : Nat) : Result ImageData :=
  (decode_j2k data width height bits_per_sample samples_per_pixel).map
    fun pixel_data =>
      ⟨width, height, bits_per_sample, samples_per_pixel, pixel_data,
        "", false⟩

/-! ## JpegLsCodec (`src/codec/jpegls.rs`) -/

/-- `JpegLsCodec::create_sof55_segment`.  `height as u16` / `width as u16`
truncate; `u16be` performs the same truncation. -/
def create_sof55_segment (image : ImageData) : List Nat :=
  [0xFF, 0xF7]
    ++ u16be (8 + 3 * image.samples_per_pixel)
    ++ [image.bits_per_sample % 256]
    ++ u16be image.height ++ u16be image.width
    ++ [image.samples_per_pixel % 256]
    ++ ((List.range image.samples_per_pixel).map
          (fun i => [(i % 256 + 1) % 256, 0x11, 0x00])).flatten

/-- `JpegLsCodec::create_lse_segment` (fixed default thresholds). -/
def create_lse_segment : List Nat :=
  [0xFF, 0xF8, 0x00, 0x0D, 0x01, 0x00, 0xFF,
   0x00, 0x03, 0x00, 0x07, 0x00, 0x15, 0x00, 0x40]

/-- `JpegLsCodec::create_sos_segment`. -/
def create_sos_segment (image : ImageData) (near : Nat) : List Nat :=
  [0xFF, 0xDA]
    ++ u16be (6 + 2 * image.samples_per_pixel)
    ++ [image.samples_per_pixel % 256]
    ++ ((List.range image.samples_per_pixel).map
          (fun i => [(i % 256 + 1) % 256, 0x00])).flatten
    ++ [near, if image.samples_per_pixel > 1 then 2 else 0, 0x00]

/-- The LOCO-I / median-edge-detector prediction of
`JpegLsCodec::compress_8bit` and `::decompress_8bit`, reading neighbours from
the partially built buffer `recon` (whose first `idx` entries are
populated).  `idx = y * width + x`; `x = 0 ∧ y = 0` is `idx = 0`, `y = 0` is
`idx < width`, `x = 0` is `idx % width = 0`. -/
def jls_predict8 (recon : List Nat) (width idx : Nat) : Nat :=
  if idx = 0 then 128
  else if idx < width then recon.getD (idx - 1) 0
  else if idx % width = 0 then recon.getD (idx - width) 0
  else
    let a : ℤ := recon.getD (idx - 1) 0
    let b : ℤ := recon.getD (idx - width) 0
    let c : ℤ := recon.getD (idx - width - 1) 0
    if c ≥ max a b then (min a b).toNat
    else if c ≤ min a b then (max a b).toNat
    else (min (max (a + b - c) 0) 255).toNat

/-- `b as i8`: two's-complement view of a byte. -/
def sign8 (b : Nat) : ℤ := if b < 128 then b else (b : ℤ) - 256

/-- `v as i16`: two's-complement view of a 16-bit value. -/
def sign16 (v : Nat) : ℤ := if v < 32768 then v else (v : ℤ) - 65536

/-- Near-lossless residual quantization of `JpegLsCodec::compress_8bit`
(`near > 0` branch): the wrapped residual byte is reinterpreted as `i8`,
divided by `step = 2*near + 1` with symmetric rounding and Rust's truncating
`/` (`Int.tdiv`), and the quotient is stored back as a byte
(`(q as i8) as u8` keeps the low 8 bits). -/
def quantize8 (error near : Nat) : Nat :=
  let e : ℤ := sign8 error
  let step : ℤ := 2 * near + 1
  let q : ℤ := if 0 ≤ e then (e + near).tdiv step else (e - near).tdiv step
  (q % 256).toNat

/-- Residual dequantization shared by `JpegLsCodec::compress_8bit` (for the
reconstructed buffer) and `::decompress_8bit`: `(e * step) as i8 as u8`
keeps the low 8 bits of the product. -/
def dequantize8 (qerror near : Nat) : Nat :=
  let e : ℤ := sign8 qerror
  let step : ℤ := 2 * near + 1
  (e * step % 256).toNat

/-- One-pass state of the `JpegLsCodec::compress_8bit` raster loop after `n`
samples: `(output bytes, reconstructed buffer)`.  The source's `y`/`x` loops
visit `idx = 0, 1, …` in order; the reconstruction at `idx` reads only
entries `< idx`. -/
def jls_encode8_steps (data : List Nat) (width near : Nat) :
    Nat → List Nat × List Nat
  | 0 => ([], [])
  | n + 1 =>
    let s := jls_encode8_steps data width near n
    let prediction := jls_predict8 s.2 width n
    let error := (data.getD n 0 + 256 - prediction) % 256
    let quantized_error := if near > 0 then quantize8 error near else error
    let dequantized_error :=
      if near > 0 then dequantize8 quantized_error near else quantized_error
    (s.1 ++ [quantized_error],
     s.2 ++ [(prediction + dequantized_error) % 256])

/-- `JpegLsCodec::compress_8bit`: `height = data.len() / width` rows of
`width` samples. -/
def compress_8bit (data : List Nat) (width near : Nat) : List Nat :=
  (jls_encode8_steps data width near (width * (data.length / width))).1

/-- 16-bit sample `i` of a little-endian byte buffer
(`u16::from_le_bytes([data[i*2], data[i*2+1]])`). -/
def sample16 (data : List Nat) (i : Nat) : Nat :=
  fromLE (data.getD (2 * i) 0) (data.getD (2 * i + 1) 0)

/-- Prediction of `JpegLsCodec::compress_16bit`, which (unlike the 8-bit
path) reads neighbours from the ORIGINAL byte buffer `data`, and of
`::decompress_16bit`, which reads them from the output buffer. -/
def jls_predict16 (buf : List Nat) (width idx : Nat) : Nat :=
  if idx = 0 then 32768
  else if idx < width then sample16 buf (idx - 1)
  else if idx % width = 0 then sample16 buf (idx - width)
  else
    let a : ℤ := sample16 buf (idx - 1)
    let b : ℤ := sample16 buf (idx - width)
    let c : ℤ := sample16 buf (idx - width - 1)
    if c ≥ max a b then (min a b).toNat
    else if c ≤ min a b then (max a b).toNat
    else (min (max (a + b - c) 0) 65535).toNat

/-- Near-lossless residual quantization of `JpegLsCodec::compress_16bit`
(`near > 0`): `n = near * 256`, `q = (error as i16 as i32 + n) / (2n + 1)`
with truncating `/`, stored as `(q as i16) as u16` (low 16 bits). -/
def quantize16 (error near : Nat) : Nat :=
  let n : ℤ := near * 256
  let q : ℤ := (sign16 error + n).tdiv (2 * n + 1)
  (q % 65536).toNat

/-- Residual dequantization of `JpegLsCodec::decompress_16bit`:
`(e * (2n + 1)) as i16 as u16` keeps the low 16 bits. -/
def dequantize16 (qerror near : Nat) : Nat :=
  let n : ℤ := near * 256
  (sign16 qerror * (2 * n + 1) % 65536).toNat

/-- Output of the `JpegLsCodec::compress_16bit` raster loop after `n`
samples (little-endian bytes). -/
def jls_encode16_steps (data : List Nat) (width near : Nat) : Nat → List Nat
  | 0 => []
  | i + 1 =>
    let out := jls_encode16_steps data width near i
    let prediction := jls_predict16 data width i
    let error := (sample16 data i + 65536 - prediction) % 65536
    let quantized_error := if near > 0 then quantize16 error near else error
    out ++ [quantized_error % 256, quantized_error / 256]

/-- `JpegLsCodec::compress_16bit`: `samples = data.len() / 2`,
`height = samples / width`. -/
def compress_16bit (data : List Nat) (width near : Nat) : List Nat :=
  jls_encode16_steps data width near (width * (data.length / 2 / width))

/-- `JpegLsCodec::compress_data`. -/
def compress_data (image : ImageData) (near : Nat) : List Nat :=
  if (image.bits_per_sample + 7) / 8 = 1 then
    compress_8bit image.pixel_data image.width near
  else
    compress_16bit image.pixel_data image.width near

/-- `JpegLsCodec::create_jls_codestream`. -/
def create_jls_codestream (image : ImageData) (near : Nat) : List Nat :=
  [0xFF, 0xD8]
    ++ create_sof55_segment image
    ++ (if near > 0 then create_lse_segment else [])
    ++ create_sos_segment image near
    ++ compress_data image near
    ++ [0xFF, 0xD9]

/-- `JpegLsCodec::encode_jls` (= `JpegLsCodec::encode`): geometry checks on
dimensions and emptiness (the source has no undersized-buffer check here),
then codestream construction with `near` drawn from the config. -/
def encode_jls (image : ImageData) (config : CompressionConfig) :
    Result (List Nat) :=
  if image.width = 0 ∨ image.height = 0 then
    .error (.ImageData "Invalid image dimensions")
  else if image.pixel_data = [] then
    .error (.ImageData "Empty pixel data")
  else
    let near :=
      if config.mode = CompressionMode.NearLossless then
        config.near_lossless_error
      else 0
    .ok (create_jls_codestream image near)

/-- `JpegLsCodec::parse_jls_header`: the segment-walking loop.  One fuel unit
per loop iteration; each iteration advances `pos` by at least 1, and the
loop guard is `pos < data.len() - 1`, so `data.length` fuel (the value
callers pass) can never be exhausted.  Returns `some (near, data_start)` for
the `SOS` arm's `Ok`, `none` for every path that reaches the final `Err`. -/
def parse_jls_header_loop (data : List Nat) : Nat → Nat → Option (Nat × Nat)
  | 0, _ => none
  | fuel + 1, pos =>
    if pos < data.length - 1 then
      if data.getD pos 0 ≠ 0xFF then
        parse_jls_header_loop data fuel (pos + 1)
      else
        if data.getD (pos + 1) 0 = 0xDA then
          if pos + 2 + 2 > data.length then none
          else
            if pos + 2 + (256 * data.getD (pos + 2) 0 +
                data.getD (pos + 2 + 1) 0) > data.length then none
            else
              some
                (if pos + 2 + 3 + 2 * data.getD (pos + 2 + 2) 0 <
                    data.length then
                  data.getD (pos + 2 + 3 + 2 * data.getD (pos + 2 + 2) 0) 0
                 else 0,
                 pos + 2 + (256 * data.getD (pos + 2) 0 +
                   data.getD (pos + 2 + 1) 0))
        else if data.getD (pos + 1) 0 = 0xD9 then none
        else if data.getD (pos + 1) 0 = 0x00 then
          parse_jls_header_loop data fuel (pos + 2)
        else
          if pos + 2 + 2 ≤ data.length then
            parse_jls_header_loop data fuel
              (pos + 2 + (256 * data.getD (pos + 2) 0 +
                data.getD (pos + 2 + 1) 0))
          else
            parse_jls_header_loop data fuel (pos + 2)
    else none

/-- `JpegLsCodec::parse_jls_header`, started at `pos = 2` as in the source. -/
def parse_jls_header (data : List Nat) : Option (Nat × Nat) :=
  parse_jls_header_loop data data.length 2

/-- Output of the `JpegLsCodec::decompress_8bit` raster loop after `n`
samples.  The source preallocates `vec![0; width*height]` and stops writing
at the first `idx ≥ data.len()` (all later indices are also past the end),
so unwritten entries stay `0`. -/
def jls_decode8_steps (errs : List Nat) (width near : Nat) : Nat → List Nat
  | 0 => []
  | n + 1 =>
    let out := jls_decode8_steps errs width near n
    if n < errs.length then
      let prediction := jls_predict8 out width n
      let error := errs.getD n 0
      let dequantized_error :=
        if near > 0 then dequantize8 error near else error
      out ++ [(prediction + dequantized_error) % 256]
    else
      out ++ [0]

/-- `JpegLsCodec::decompress_8bit`. -/
def decompress_8bit (data : List Nat) (width height near : Nat) : List Nat :=
  jls_decode8_steps data width near (width * height)

/-- Abbreviation: the wrapped prediction residual computed by
`compress_8bit` at raster step `n`. -/
def jls_enc8_error (data : List Nat) (width near n : Nat) : Nat :=
  (data.getD n 0 + 256 -
    jls_predict8 (jls_encode8_steps data width near n).2 width n) % 256

/-- Abbreviation: the residual byte stored by `compress_8bit` at step `n`. -/
def jls_enc8_q (data : List Nat) (width near n : Nat) : Nat :=
  if near > 0 then quantize8 (jls_enc8_error data width near n) near
  else jls_enc8_error data width near n

/-- Abbreviation: the dequantized residual `compress_8bit` adds back to the
prediction at step `n` to fill the reconstructed buffer. -/
def jls_enc8_deq (data : List Nat) (width near n : Nat) : Nat :=
  if near > 0 then dequantize8 (jls_enc8_q data width near n) near
  else jls_enc8_q data width near n

/-- Output of the `JpegLsCodec::decompress_16bit` loop after `n` samples
(little-endian bytes; predictions read the output buffer). -/
def jls_decode16_steps (errs : List Nat) (width near : Nat) : Nat → List Nat
  | 0 => []
  | i + 1 =>
    let out := jls_decode16_steps errs width near i
    if 2 * i + 1 < errs.length then
      let error := fromLE (errs.getD (2 * i) 0) (errs.getD (2 * i + 1) 0)
      let prediction := jls_predict16 out width i
      let dequantized_error :=
        if near > 0 then dequantize16 error near else error
      let value := (prediction + dequantized_error) % 65536
      out ++ [value % 256, value / 256]
    else
      out ++ [0, 0]

/-- `JpegLsCodec::decompress_16bit`. -/
def decompress_16bit (data : List Nat) (width height near : Nat) : List Nat :=
  jls_decode16_steps data width near (width * height)

/-- `JpegLsCodec::decode_jls`. -/
def decode_jls (data : List Nat) (width height bits_per_sample
    _samples_per_pixel : Nat) : Result (List Nat) :=
  if data.length < 4 then
    .error (.Codec "Invalid JPEG-LS data: too short")
  else if ¬(data.getD 0 0 = 0xFF ∧ data.getD 1 0 = 0xD8) then
    .error (.Codec "Invalid JPEG-LS data: missing SOI marker")
  else
    match parse_jls_header data with
    | none => .error (.Codec "Could not find SOS marker in JPEG-LS data")
    | some (near, data_start) =>
      let data_end :=
        if 2 ≤ data.length ∧ data.getD (data.length - 2) 0 = 0xFF ∧
            data.getD (data.length - 1) 0 = 0xD9 then
          data.length - 2
        else data.length
      if data_start ≥ data_end then
        .error (.Codec "Invalid JPEG-LS data: no image data")
      else
        let compressed := (data.drop data_start).take (data_end - data_start)
        if (bits_per_sample + 7) / 8 = 1 then
          .ok (decompress_8bit compressed width height near)
        else
          .ok (decompress_16bit compressed width height near)

/-- `JpegLsCodec::decode` (trait impl). -/
def jpegls_decode (data : List Nat) (width height bits_per_sample
    samples_per_pixel : Nat) : Result ImageData :=
  (decode_jls data width height bits_per_sample samples_per_pixel).map
    fun pixel_data =>
      ⟨width, height, bits_per_sample, samples_per_pixel, pixel_data,
        "", false⟩

/-! ## UncompressedCodec (`src/codec/mod.rs`) -/

/-- `UncompressedCodec::encode`: identity copy of the pixel bytes. -/
def uncompressed_encode (image : ImageData) (_config : CompressionConfig) :
    Result (List Nat) :=
  .ok image.pixel_data

/-- `UncompressedCodec::decode`: wrap the raw bytes unchanged. -/
def uncompressed_decode (data : List Nat) (width height bits_per_sample
    samples_per_pixel : Nat) : Result ImageData :=
  .ok ⟨width, height, bits_per_sample, samples_per_pixel, data, "", false⟩

/-! ## Generic helper lemmas -/

theorem take_two_of_cons (l rest : List Nat) (a b : Nat)
    (h : l = a :: b :: rest) : l.take 2 = [a, b] := by
  subst h; rfl

theorem drop_length_sub_two (xs : List Nat) (a b : Nat) :
    (xs ++ [a, b]).drop ((xs ++ [a, b]).length - 2) = [a, b] := by
  have hl : (xs ++ [a, b]).length - 2 = xs.length := by simp
  rw [hl, List.drop_left]

theorem getD_zero_drop (l : List Nat) (n : Nat) (h : n < l.length) :
    (l.drop n).getD 0 0 = l.getD n 0 := by
  induction l generalizing n with
  | nil => simp at h
  | cons x t ih =>
    cases n with
    | zero => rfl
    | succ m =>
      have h2 : m < t.length := by simp at h; omega
      simp only [List.drop_succ_cons, List.getD_cons_succ]
      exact ih m h2

theorem getD_zero_take (l : List Nat) (k : Nat) (h : 0 < k) :
    (l.take k).getD 0 0 = l.getD 0 0 := by
  cases l with
  | nil => simp
  | cons x t => cases k with
    | zero => omega
    | succ m => rfl

theorem getD_lt_of_forall_lt (l : List Nat) (i bound : Nat) (hb : 0 < bound)
    (h : ∀ x ∈ l, x < bound) : l.getD i 0 < bound := by
  by_cases hi : i < l.length
  · rw [List.getD_eq_getElem l 0 hi]
    exact h _ (List.getElem_mem hi)
  · rw [List.getD_eq_default l 0 (by omega)]
    exact hb

/-! ## Header-parse lemmas for encoder-produced prediction-container streams
(single component, 8-bit) -/

theorem parse_jls_stream_lossless (hA hB wA wB : Nat) (payload : List Nat)
    (hp : 1 ≤ payload.length) :
    parse_jls_header (255 :: 216 :: 255 :: 247 :: 0 :: 11 :: 8 :: hA :: hB ::
      wA :: wB :: 1 :: 1 :: 17 :: 0 :: 255 :: 218 :: 0 :: 8 :: 1 :: 1 :: 0 ::
      0 :: 0 :: 0 :: (payload ++ [255, 217])) = some (0, 25) := by
  set L := 255 :: 216 :: 255 :: 247 :: 0 :: 11 :: 8 :: hA :: hB ::
      wA :: wB :: 1 :: 1 :: 17 :: 0 :: 255 :: 218 :: 0 :: 8 :: 1 :: 1 :: 0 ::
      0 :: 0 :: 0 :: (payload ++ [255, 217]) with hL
  have hlen : L.length = 27 + payload.length := by
    rw [hL]; simp; omega
  have g3 : L.getD (2 + 1) 0 = 247 := rfl
  have g4 : L.getD (2 + 2) 0 = 0 := rfl
  have g5 : L.getD (2 + 2 + 1) 0 = 11 := rfl
  have g16 : L.getD (15 + 1) 0 = 218 := rfl
  have g17 : L.getD (15 + 2) 0 = 0 := rfl
  have g18 : L.getD (15 + 2 + 1) 0 = 8 := rfl
  have g19 : L.getD (15 + 2 + 2) 0 = 1 := rfl
  have g22 : L.getD (15 + 2 + 3 + 2 * 1) 0 = 0 := rfl
  rw [parse_jls_header]
  rw [show L.length = (L.length - 1) + 1 from by omega]
  rw [parse_jls_header_loop]
  rw [if_pos (show 2 < L.length - 1 by omega)]
  rw [if_neg (not_not_intro (show L.getD 2 0 = 255 from rfl))]
  rw [if_neg (show ¬(L.getD (2 + 1) 0 = 218) from by rw [g3]; decide)]
  rw [if_neg (show ¬(L.getD (2 + 1) 0 = 217) from by rw [g3]; decide)]
  rw [if_neg (show ¬(L.getD (2 + 1) 0 = 0) from by rw [g3]; decide)]
  rw [if_pos (show 2 + 2 + 2 ≤ L.length by omega)]
  rw [show 2 + 2 + (256 * L.getD (2 + 2) 0 + L.getD (2 + 2 + 1) 0) = 15 from
    by rw [g4, g5]]
  rw [show L.length - 1 = (L.length - 2) + 1 from by omega]
  rw [parse_jls_header_loop]
  rw [if_pos (show 15 < L.length - 1 by omega)]
  rw [if_neg (not_not_intro (show L.getD 15 0 = 255 from rfl))]
  rw [if_pos g16]
  rw [if_neg (show ¬(15 + 2 + 2 > L.length) from by omega)]
  rw [g17, g18]
  rw [if_neg (show ¬(15 + 2 + (256 * 0 + 8) > L.length) from by omega)]
  rw [g19]
  rw [if_pos (show 15 + 2 + 3 + 2 * 1 < L.length by omega)]
  rw [g22]

theorem parse_jls_stream_near (hA hB wA wB near : Nat) (payload : List Nat)
    (hp : 1 ≤ payload.length) :
    parse_jls_header (255 :: 216 :: 255 :: 247 :: 0 :: 11 :: 8 :: hA :: hB ::
      wA :: wB :: 1 :: 1 :: 17 :: 0 ::
      255 :: 248 :: 0 :: 13 :: 1 :: 0 :: 255 :: 0 :: 3 :: 0 :: 7 :: 0 :: 21 ::
      0 :: 64 ::
      255 :: 218 :: 0 :: 8 :: 1 :: 1 :: 0 :: near :: 0 :: 0 ::
      (payload ++ [255, 217])) = some (near, 40) := by
  set L := 255 :: 216 :: 255 :: 247 :: 0 :: 11 :: 8 :: hA :: hB ::
      wA :: wB :: 1 :: 1 :: 17 :: 0 ::
      255 :: 248 :: 0 :: 13 :: 1 :: 0 :: 255 :: 0 :: 3 :: 0 :: 7 :: 0 :: 21 ::
      0 :: 64 ::
      255 :: 218 :: 0 :: 8 :: 1 :: 1 :: 0 :: near :: 0 :: 0 ::
      (payload ++ [255, 217]) with hL
  have hlen : L.length = 42 + payload.length := by
    rw [hL]; simp; omega
  have g3 : L.getD (2 + 1) 0 = 247 := rfl
  have g4 : L.getD (2 + 2) 0 = 0 := rfl
  have g5 : L.getD (2 + 2 + 1) 0 = 11 := rfl
  have g16 : L.getD (15 + 1) 0 = 248 := rfl
  have g17 : L.getD (15 + 2) 0 = 0 := rfl
  have g18 : L.getD (15 + 2 + 1) 0 = 13 := rfl
  have g31 : L.getD (30 + 1) 0 = 218 := rfl
  have g32 : L.getD (30 + 2) 0 = 0 := rfl
  have g33 : L.getD (30 + 2 + 1) 0 = 8 := rfl
  have g34 : L.getD (30 + 2 + 2) 0 = 1 := rfl
  have g37 : L.getD (30 + 2 + 3 + 2 * 1) 0 = near := rfl
  rw [parse_jls_header]
  rw [show L.length = (L.length - 1) + 1 from by omega]
  rw [parse_jls_header_loop]
  rw [if_pos (show 2 < L.length - 1 by omega)]
  rw [if_neg (not_not_intro (show L.getD 2 0 = 255 from rfl))]
  rw [if_neg (show ¬(L.getD (2 + 1) 0 = 218) from by rw [g3]; decide)]
  rw [if_neg (show ¬(L.getD (2 + 1) 0 = 217) from by rw [g3]; decide)]
  rw [if_neg (show ¬(L.getD (2 + 1) 0 = 0) from by rw [g3]; decide)]
  rw [if_pos (show 2 + 2 + 2 ≤ L.length by omega)]
  rw [show 2 + 2 + (256 * L.getD (2 + 2) 0 + L.getD (2 + 2 + 1) 0) = 15 from
    by rw [g4, g5]]
  rw [show L.length - 1 = (L.length - 2) + 1 from by omega]
  rw [parse_jls_header_loop]
  rw [if_pos (show 15 < L.length - 1 by omega)]
  rw [if_neg (not_not_intro (show L.getD 15 0 = 255 from rfl))]
  rw [if_neg (show ¬(L.getD (15 + 1) 0 = 218) from by rw [g16]; decide)]
  rw [if_neg (show ¬(L.getD (15 + 1) 0 = 217) from by rw [g16]; decide)]
  rw [if_neg (show ¬(L.getD (15 + 1) 0 = 0) from by rw [g16]; decide)]
  rw [if_pos (show 15 + 2 + 2 ≤ L.length by omega)]
  rw [show 15 + 2 + (256 * L.getD (15 + 2) 0 + L.getD (15 + 2 + 1) 0) = 30
    from by rw [g17, g18]]
  rw [show L.length - 2 = (L.length - 3) + 1 from by omega]
  rw [parse_jls_header_loop]
  rw [if_pos (show 30 < L.length - 1 by omega)]
  rw [if_neg (not_not_intro (show L.getD 30 0 = 255 from rfl))]
  rw [if_pos g31]
  rw [if_neg (show ¬(30 + 2 + 2 > L.length) from by omega)]
  rw [g32, g33]
  rw [if_neg (show ¬(30 + 2 + (256 * 0 + 8) > L.length) from by omega)]
  rw [g34]
  rw [if_pos (show 30 + 2 + 3 + 2 * 1 < L.length by omega)]
  rw [g37]

/-! ## Arithmetic lemmas for the near-lossless residual quantizer -/

theorem sign8_bound (b : Nat) (hb : b < 256) :
    -128 ≤ sign8 b ∧ sign8 b ≤ 127 := by
  unfold sign8
  split_ifs <;> omega

theorem sign8_dvd (b : Nat) : (256 : ℤ) ∣ ((b : ℤ) - sign8 b) := by
  unfold sign8
  split_ifs
  · simp
  · exact ⟨1, by ring⟩

theorem quant_delta_bound (e near : ℤ) (hnear : 0 ≤ near) :
    -near ≤ (if 0 ≤ e then (e + near).tdiv (2 * near + 1)
      else (e - near).tdiv (2 * near + 1)) * (2 * near + 1) - e ∧
    (if 0 ≤ e then (e + near).tdiv (2 * near + 1)
      else (e - near).tdiv (2 * near + 1)) * (2 * near + 1) - e ≤ near := by
  have hs : (0 : ℤ) < 2 * near + 1 := by omega
  split_ifs with he
  · rw [Int.tdiv_eq_ediv (by omega) (by omega)]
    have h1 := Int.ediv_add_emod (e + near) (2 * near + 1)
    have h2 := Int.emod_nonneg (e + near) (by omega : (2 * near + 1 : ℤ) ≠ 0)
    have h3 := Int.emod_lt_of_pos (e + near) hs
    have h4 : (e + near) / (2 * near + 1) * (2 * near + 1) =
        (2 * near + 1) * ((e + near) / (2 * near + 1)) := by ring
    constructor <;> (rw [h4]; omega)
  · rw [show e - near = -(near - e) from by ring, Int.neg_tdiv,
      Int.tdiv_eq_ediv (by omega) (by omega)]
    have h1 := Int.ediv_add_emod (near - e) (2 * near + 1)
    have h2 := Int.emod_nonneg (near - e) (by omega : (2 * near + 1 : ℤ) ≠ 0)
    have h3 := Int.emod_lt_of_pos (near - e) hs
    have h4 : -((near - e) / (2 * near + 1)) * (2 * near + 1) =
        -((2 * near + 1) * ((near - e) / (2 * near + 1))) := by ring
    constructor <;> (rw [h4]; omega)

theorem emod256_sub_dvd (a : ℤ) : (256 : ℤ) ∣ (a % 256 - a) :=
  ⟨-(a / 256), by rw [Int.emod_def]; ring⟩

/-- Per-sample cyclic error bound for one quantize/dequantize round of the
8-bit near-lossless path (`near > 0`): the reconstructed value
`(pred + dequantize8 (quantize8 error near) near) % 256` differs from `cur`
by at most `near` in wrap-around (mod 256) distance. -/
theorem jls_step_bound_pos (cur pred near : Nat) (hcur : cur < 256)
    (hpred : pred < 256) (hnear : near < 256) (hnz : 0 < near) :
    ((pred + dequantize8 (quantize8 ((cur + 256 - pred) % 256) near) near)
        % 256 + 256 - cur) % 256 ≤ near ∨
    (cur + 256 - (pred + dequantize8 (quantize8 ((cur + 256 - pred) % 256)
        near) near) % 256) % 256 ≤ near := by
  set error := (cur + 256 - pred) % 256 with herr
  have herrlt : error < 256 := Nat.mod_lt _ (by omega)
  set e : ℤ := sign8 error with he
  have heb := sign8_bound error herrlt
  have hed : (256 : ℤ) ∣ ((error : ℤ) - e) := sign8_dvd error
  set q : ℤ := if 0 ≤ e then (e + (near : ℤ)).tdiv (2 * near + 1)
    else (e - (near : ℤ)).tdiv (2 * near + 1) with hq
  have hqcast : ((quantize8 error near : Nat) : ℤ) = q % 256 := by
    rw [quantize8, ← he, ← hq]
    exact Int.toNat_of_nonneg (Int.emod_nonneg _ (by norm_num))
  have hqlt : (quantize8 error near : Nat) < 256 := by
    have h1 := Int.emod_lt_of_pos q (show (0:ℤ) < 256 by norm_num)
    have h2 := Int.emod_nonneg q (show (256:ℤ) ≠ 0 by norm_num)
    omega
  set e2 : ℤ := sign8 (quantize8 error near) with he2
  have he2q : (256 : ℤ) ∣ (e2 - q) := by
    obtain ⟨k1, hk1⟩ := sign8_dvd (quantize8 error near)
    obtain ⟨k2, hk2⟩ := emod256_sub_dvd q
    rw [hqcast] at hk1
    exact ⟨k2 - k1, by omega⟩
  have hdeq : ((dequantize8 (quantize8 error near) near : Nat) : ℤ) =
      e2 * (2 * near + 1) % 256 := by
    rw [dequantize8, ← he2]
    exact Int.toNat_of_nonneg (Int.emod_nonneg _ (by norm_num))
  have hdeqlt : (dequantize8 (quantize8 error near) near : Nat) < 256 := by
    have h1 := Int.emod_lt_of_pos (e2 * (2 * near + 1))
      (show (0:ℤ) < 256 by norm_num)
    have h2 := Int.emod_nonneg (e2 * (2 * near + 1))
      (show (256:ℤ) ≠ 0 by norm_num)
    omega
  have hdeqq : (256 : ℤ) ∣
      (((dequantize8 (quantize8 error near) near : Nat) : ℤ) -
        q * (2 * near + 1)) := by
    obtain ⟨k1, hk1⟩ := emod256_sub_dvd (e2 * (2 * near + 1))
    obtain ⟨k2, hk2⟩ := he2q
    refine ⟨k1 + k2 * (2 * near + 1), ?_⟩
    rw [hdeq]
    have hx : e2 * (2 * near + 1) - q * (2 * near + 1) =
        (e2 - q) * (2 * near + 1) := by ring
    nlinarith [hk1, hk2, hx]
  have hδ := quant_delta_bound e near (by omega)
  rw [← hq] at hδ
  set v := (pred + dequantize8 (quantize8 error near) near) % 256 with hv
  have hvlt : v < 256 := Nat.mod_lt _ (by omega)
  have hvd : (256 : ℤ) ∣ ((v : ℤ) -
      ((pred : ℤ) + (dequantize8 (quantize8 error near) near : Nat))) := by
    obtain ⟨k1, hk1⟩ :=
      emod256_sub_dvd ((pred : ℤ) +
        (dequantize8 (quantize8 error near) near : Nat))
    refine ⟨k1, ?_⟩
    rw [hv]
    push_cast
    omega
  have herrd : (256 : ℤ) ∣ ((error : ℤ) - ((cur : ℤ) + 256 - pred)) := by
    obtain ⟨k1, hk1⟩ := emod256_sub_dvd ((cur : ℤ) + 256 - pred)
    refine ⟨k1, ?_⟩
    rw [herr]
    have hsub : ((cur + 256 - pred : Nat) : ℤ) = (cur : ℤ) + 256 - pred := by
      omega
    push_cast
    omega
  have hcomb : (256 : ℤ) ∣ ((v : ℤ) - cur - (q * (2 * near + 1) - e)) := by
    obtain ⟨k1, hk1⟩ := hvd
    obtain ⟨k2, hk2⟩ := hdeqq
    obtain ⟨k3, hk3⟩ := hed
    obtain ⟨k4, hk4⟩ := herrd
    exact ⟨k1 + k2 - k3 + k4 + 1, by omega⟩
  obtain ⟨k, hk⟩ := hcomb
  rcases hδ with ⟨hδ1, hδ2⟩
  rcases le_or_lt 0 (q * (2 * near + 1) - e) with hpos | hneg
  · left
    omega
  · right
    omega

/-! ## The prediction-container decoder mirrors the encoder's reconstructed
buffer -/

theorem jls_encode8_steps_fst_length (data : List Nat) (w near : Nat) :
    ∀ n, (jls_encode8_steps data w near n).1.length = n := by
  intro n
  induction n with
  | zero => rfl
  | succ k ih => simp [jls_encode8_steps, ih]

theorem jls_encode8_steps_snd_length (data : List Nat) (w near : Nat) :
    ∀ n, (jls_encode8_steps data w near n).2.length = n := by
  intro n
  induction n with
  | zero => rfl
  | succ k ih => simp [jls_encode8_steps, ih]

theorem jls_decode8_steps_length (errs : List Nat) (w near : Nat) :
    ∀ n, (jls_decode8_steps errs w near n).length = n := by
  intro n
  induction n with
  | zero => rfl
  | succ k ih =>
    simp only [jls_decode8_steps]
    split_ifs <;> simp [ih]

theorem jls_encode8_steps_succ_fst (data : List Nat) (w near n : Nat) :
    (jls_encode8_steps data w near (n + 1)).1 =
      (jls_encode8_steps data w near n).1 ++ [jls_enc8_q data w near n] := rfl

theorem jls_encode8_steps_succ_snd (data : List Nat) (w near n : Nat) :
    (jls_encode8_steps data w near (n + 1)).2 =
      (jls_encode8_steps data w near n).2 ++
        [(jls_predict8 (jls_encode8_steps data w near n).2 w n +
          jls_enc8_deq data w near n) % 256] := rfl

theorem getD_append_self (xs ys : List Nat) :
    (xs ++ ys).getD xs.length 0 = ys.getD 0 0 := by
  rw [List.getD_append_right _ _ _ _ (le_refl _), Nat.sub_self]

theorem jls_encode8_out_getD (data : List Nat) (w near : Nat) :
    ∀ k m, m < k →
      ((jls_encode8_steps data w near k).1).getD m 0 =
        jls_enc8_q data w near m := by
  intro k
  induction k with
  | zero => intro m h; omega
  | succ j ih =>
    intro m hm
    rw [jls_encode8_steps_succ_fst]
    rcases Nat.lt_or_ge m j with h | h
    · rw [List.getD_append _ _ _ _
        (by rw [jls_encode8_steps_fst_length]; exact h)]
      exact ih m h
    · have hmj : m = j := by omega
      subst hmj
      rw [List.getD_append_right _ _ _ _
        (by rw [jls_encode8_steps_fst_length])]
      rw [show m - (jls_encode8_steps data w near m).1.length = 0 from by
        rw [jls_encode8_steps_fst_length]; omega]
      rfl

theorem jls_encode8_recon_lt (data : List Nat) (w near : Nat) :
    ∀ n, ∀ x ∈ (jls_encode8_steps data w near n).2, x < 256 := by
  intro n
  induction n with
  | zero => intro x hx; simp [jls_encode8_steps] at hx
  | succ k ih =>
    intro x hx
    rw [jls_encode8_steps_succ_snd] at hx
    rcases List.mem_append.mp hx with h | h
    · exact ih x h
    · rw [List.mem_singleton] at h
      subst h
      exact Nat.mod_lt _ (by omega)

theorem jls_predict8_lt (recon : List Nat) (w idx : Nat)
    (h : ∀ x ∈ recon, x < 256) : jls_predict8 recon w idx < 256 := by
  have h1 := getD_lt_of_forall_lt recon (idx - 1) 256 (by omega) h
  have h2 := getD_lt_of_forall_lt recon (idx - w) 256 (by omega) h
  have h3 := getD_lt_of_forall_lt recon (idx - w - 1) 256 (by omega) h
  simp only [jls_predict8]
  split_ifs <;> omega

/-- The decoder's output buffer after `m` samples equals the encoder's
reconstructed buffer after `m` samples, when decoding the encoder's full
`n`-sample output (`m ≤ n`): both read the same residual bytes and apply the
same prediction and dequantization to their own previously reconstructed
entries. -/
theorem jls_decode8_mirror (data : List Nat) (w near n : Nat) :
    ∀ m, m ≤ n →
      jls_decode8_steps ((jls_encode8_steps data w near n).1) w near m =
        (jls_encode8_steps data w near m).2 := by
  intro m
  induction m with
  | zero => intro _; rfl
  | succ k ih =>
    intro hk
    have ih' := ih (by omega)
    have hklt : k < ((jls_encode8_steps data w near n).1).length := by
      rw [jls_encode8_steps_fst_length]; omega
    simp only [jls_decode8_steps]
    rw [if_pos hklt, ih', jls_encode8_out_getD data w near n k (by omega),
      jls_encode8_steps_succ_snd]
    simp only [jls_enc8_deq]

/-- Cyclic (mod 256) per-sample bound between the encoder's reconstructed
buffer and the source: every entry differs from the source byte by at most
`near` in wrap-around distance. -/
theorem jls_recon_bound (data : List Nat) (w near : Nat)
    (hbytes : ∀ x ∈ data, x < 256) (hnear : near < 256) :
    ∀ n i, i < n →
      (((jls_encode8_steps data w near n).2.getD i 0 + 256 - data.getD i 0)
        % 256 ≤ near ∨
       (data.getD i 0 + 256 - (jls_encode8_steps data w near n).2.getD i 0)
        % 256 ≤ near) := by
  intro n
  induction n with
  | zero => intro i h; omega
  | succ k ih =>
    intro i hi
    rw [jls_encode8_steps_succ_snd]
    rcases Nat.lt_or_ge i k with h | h
    · rw [List.getD_append _ _ _ _
        (by rw [jls_encode8_steps_snd_length]; exact h)]
      exact ih i h
    · have hik : i = k := by omega
      subst hik
      rw [List.getD_append_right _ _ _ _
        (by rw [jls_encode8_steps_snd_length])]
      rw [show i - (jls_encode8_steps data w near i).2.length = 0 from by
        rw [jls_encode8_steps_snd_length]; omega]
      simp only [List.getD_cons_zero]
      have hcur : data.getD i 0 < 256 :=
        getD_lt_of_forall_lt data i 256 (by omega) hbytes
      have hpred :
          jls_predict8 (jls_encode8_steps data w near i).2 w i < 256 :=
        jls_predict8_lt _ _ _ (jls_encode8_recon_lt data w near i)
      rcases Nat.eq_zero_or_pos near with hz0 | hz1
      · subst hz0
        simp only [jls_enc8_deq, jls_enc8_q, jls_enc8_error,
          Nat.lt_irrefl, if_false]
        left
        omega
      · simp only [jls_enc8_deq, jls_enc8_q, jls_enc8_error, if_pos hz1]
        exact jls_step_bound_pos (data.getD i 0)
          (jls_predict8 (jls_encode8_steps data w near i).2 w i)
          near hcur hpred hnear hz1

/-- Decoding the 8-bit compressed stream reproduces the encoder's
reconstructed buffer. -/
theorem decompress_compress_8bit (data : List Nat) (w h near : Nat)
    (hw : 0 < w) (hlen : data.length = w * h) :
    decompress_8bit (compress_8bit data w near) w h near =
      (jls_encode8_steps data w near (w * h)).2 := by
  rw [decompress_8bit, compress_8bit]
  rw [show w * (data.length / w) = w * h from by
    rw [hlen, Nat.mul_div_cancel_left _ hw]]
  exact jls_decode8_mirror data w near (w * h) (w * h) (le_refl _)

theorem getD_append_pair_fst (xs : List Nat) (a b : Nat) :
    (xs ++ [a, b]).getD ((xs ++ [a, b]).length - 2) 0 = a := by
  have hl : (xs ++ [a, b]).length - 2 = xs.length := by simp
  rw [hl, getD_append_self]
  rfl

theorem getD_append_pair_snd (xs : List Nat) (a b : Nat) :
    (xs ++ [a, b]).getD ((xs ++ [a, b]).length - 1) 0 = b := by
  have hl : (xs ++ [a, b]).length - 1 = xs.length + 1 := by simp
  rw [hl, List.getD_append_right _ _ _ _ (by omega)]
  rw [show xs.length + 1 - xs.length = 1 from by omega]
  rfl

theorem decode_jls_8bit_of_parse (S : List Nat) (w h spp near start : Nat)
    (h4 : 4 ≤ S.length)
    (hsoi : S.getD 0 0 = 0xFF ∧ S.getD 1 0 = 0xD8)
    (hparse : parse_jls_header S = some (near, start))
    (heoi : S.getD (S.length - 2) 0 = 0xFF ∧ S.getD (S.length - 1) 0 = 0xD9)
    (hstart : start < S.length - 2) :
    decode_jls S w h 8 spp =
      .ok (decompress_8bit ((S.drop start).take (S.length - 2 - start))
        w h near) := by
  rw [decode_jls, if_neg (by omega), if_neg (not_not_intro hsoi), hparse]
  simp only []
  have hdend : (if 2 ≤ S.length ∧ S.getD (S.length - 2) 0 = 0xFF ∧
      S.getD (S.length - 1) 0 = 0xD9 then S.length - 2 else S.length) =
      S.length - 2 := if_pos ⟨by omega, heoi.1, heoi.2⟩
  rw [hdend]
  rw [if_neg (show ¬(start ≥ S.length - 2) from by omega)]
  simp

theorem c2_decode_tail (data pre : List Nat) (w h near : Nat)
    (hw : 0 < w) (hh : 0 < h) (hlen : data.length = w * h)
    (hbytes : ∀ x ∈ data, x < 256) (hnear : near < 256)
    (hpre : 2 ≤ pre.length)
    (hsoi : ((pre ++ compress_8bit data w near) ++ [255, 217]).getD 0 0 = 0xFF ∧
      ((pre ++ compress_8bit data w near) ++ [255, 217]).getD 1 0 = 0xD8)
    (hparse : parse_jls_header
      ((pre ++ compress_8bit data w near) ++ [255, 217]) =
      some (near, pre.length)) :
    ∃ buf, decode_jls ((pre ++ compress_8bit data w near) ++ [255, 217])
        w h 8 1 = .ok buf ∧
      buf.length = data.length ∧
      ∀ i, i < data.length →
        ((buf.getD i 0 + 256 - data.getD i 0) % 256 ≤ near ∨
         (data.getD i 0 + 256 - buf.getD i 0) % 256 ≤ near) := by
  set payload := compress_8bit data w near with hpayload_def
  have hpaylen : payload.length = w * h := by
    rw [hpayload_def, compress_8bit, jls_encode8_steps_fst_length, hlen,
      Nat.mul_div_cancel_left _ hw]
  set S := (pre ++ payload) ++ [255, 217] with hS
  have hSlen : S.length = pre.length + payload.length + 2 := by
    rw [hS]; simp; omega
  have hwh : 1 ≤ w * h := Nat.one_le_iff_ne_zero.mpr (by positivity)
  have h4 : 4 ≤ S.length := by omega
  have heoi : S.getD (S.length - 2) 0 = 0xFF ∧
      S.getD (S.length - 1) 0 = 0xD9 :=
    ⟨getD_append_pair_fst (pre ++ payload) 255 217,
     getD_append_pair_snd (pre ++ payload) 255 217⟩
  have hstart : pre.length < S.length - 2 := by omega
  have hd := decode_jls_8bit_of_parse S w h 1 near pre.length h4 hsoi hparse
    heoi hstart
  have hdrop : S.drop pre.length = payload ++ [255, 217] := by
    rw [hS, List.append_assoc]
    exact List.drop_left _ _
  have htake : (payload ++ [255, 217]).take (S.length - 2 - pre.length) =
      payload := List.take_left' (by omega)
  rw [hdrop, htake] at hd
  refine ⟨_, hd, ?_, ?_⟩
  · rw [decompress_compress_8bit data w h near hw hlen,
      jls_encode8_steps_snd_length, hlen]
  · intro i hi
    rw [decompress_compress_8bit data w h near hw hlen]
    exact jls_recon_bound data w near hbytes hnear (w * h) i (by omega)

/-- C2 amended: for every single-component 8-bit buffer of exact geometry
(byte values < 256) and every u8 tolerance `near`, the prediction-container
NearLossless encode/decode pipeline succeeds and every decoded sample differs
from the corresponding source sample by at most `near` — hence at most
`2*near + 1` — in wrap-around (mod 256) distance.  The plain
absolute-difference bound of the original claim fails at byte-range
wraparound (see the counterexample). -/
theorem c2_amended_near_lossless_cyclic_bound (data : List Nat)
    (w h near ql : Nat) (tr : Option ℚ)
    (ph : String) (sg : Bool)
    (hw : 0 < w) (hh : 0 < h) (hlen : data.length = w * h)
    (hbytes : ∀ x ∈ data, x < 256) (hnear : near < 256) :
    ∃ stream buf,
      encode_jls ⟨w, h, 8, 1, data, ph, sg⟩
        ⟨.JpegLs, .NearLossless, tr, ql, near⟩ = .ok stream ∧
      decode_jls stream w h 8 1 = .ok buf ∧
      buf.length = data.length ∧
      ∀ i, i < data.length →
        ((buf.getD i 0 + 256 - data.getD i 0) % 256 ≤ near ∨
         (data.getD i 0 + 256 - buf.getD i 0) % 256 ≤ near) := by
  have hdne : data ≠ [] := by
    intro hnil
    rw [hnil] at hlen
    simp at hlen
    omega
  have hencode : encode_jls ⟨w, h, 8, 1, data, ph, sg⟩
      ⟨.JpegLs, .NearLossless, tr, ql, near⟩ =
      .ok (create_jls_codestream ⟨w, h, 8, 1, data, ph, sg⟩ near) := by
    simp only [encode_jls]
    rw [if_neg (by simp; omega), if_neg (by simpa using hdne),
      if_pos trivial]
  have hsof : create_sof55_segment ⟨w, h, 8, 1, data, ph, sg⟩ =
      255 :: 247 :: 0 :: 11 :: 8 :: (h / 256 % 256) :: (h % 256) ::
      (w / 256 % 256) :: (w % 256) :: 1 :: 1 :: 17 :: 0 :: [] := by
    simp [create_sof55_segment, u16be, List.range_succ]
  have hsos : create_sos_segment ⟨w, h, 8, 1, data, ph, sg⟩ near =
      255 :: 218 :: 0 :: 8 :: 1 :: 1 :: 0 :: near :: 0 :: 0 :: [] := by
    simp [create_sos_segment, u16be, List.range_succ]
  have hcmp : compress_data ⟨w, h, 8, 1, data, ph, sg⟩ near =
      compress_8bit data w near := by
    simp [compress_data]
  have hwh : 1 ≤ w * h := Nat.one_le_iff_ne_zero.mpr (by positivity)
  have hpaylen : (compress_8bit data w near).length = w * h := by
    rw [compress_8bit, jls_encode8_steps_fst_length, hlen,
      Nat.mul_div_cancel_left _ hw]
  rcases Nat.eq_zero_or_pos near with hz | hpos
  · subst hz
    have hcreate : create_jls_codestream ⟨w, h, 8, 1, data, ph, sg⟩ 0 =
        (([255, 216, 255, 247, 0, 11, 8] ++ [h / 256 % 256, h % 256,
          w / 256 % 256, w % 256] ++ [1, 1, 17, 0] ++
          [255, 218, 0, 8, 1, 1, 0, 0, 0, 0]) ++ compress_8bit data w 0) ++
          [255, 217] := by
      rw [create_jls_codestream, hsof, hsos, hcmp]
      simp
    have hshape : (([255, 216, 255, 247, 0, 11, 8] ++ [h / 256 % 256,
        h % 256, w / 256 % 256, w % 256] ++ [1, 1, 17, 0] ++
        [255, 218, 0, 8, 1, 1, 0, 0, 0, 0]) ++ compress_8bit data w 0) ++
        [255, 217] =
        255 :: 216 :: 255 :: 247 :: 0 :: 11 :: 8 :: (h / 256 % 256) ::
        (h % 256) :: (w / 256 % 256) :: (w % 256) :: 1 :: 1 :: 17 :: 0 ::
        255 :: 218 :: 0 :: 8 :: 1 :: 1 :: 0 :: 0 :: 0 :: 0 ::
        (compress_8bit data w 0 ++ [255, 217]) := by
      simp
    have hparse : parse_jls_header ((([255, 216, 255, 247, 0, 11, 8] ++
        [h / 256 % 256, h % 256, w / 256 % 256, w % 256] ++ [1, 1, 17, 0] ++
        [255, 218, 0, 8, 1, 1, 0, 0, 0, 0]) ++ compress_8bit data w 0) ++
        [255, 217]) = some (0, ([255, 216, 255, 247, 0, 11, 8] ++
        [h / 256 % 256, h % 256, w / 256 % 256, w % 256] ++ [1, 1, 17, 0] ++
        [255, 218, 0, 8, 1, 1, 0, 0, 0, 0] : List Nat).length) := by
      rw [hshape]
      exact parse_jls_stream_lossless (h / 256 % 256) (h % 256)
        (w / 256 % 256) (w % 256) (compress_8bit data w 0) (by omega)
    have hsoi : ((([255, 216, 255, 247, 0, 11, 8] ++ [h / 256 % 256,
        h % 256, w / 256 % 256, w % 256] ++ [1, 1, 17, 0] ++
        [255, 218, 0, 8, 1, 1, 0, 0, 0, 0]) ++ compress_8bit data w 0) ++
        [255, 217]).getD 0 0 = 0xFF ∧
        ((([255, 216, 255, 247, 0, 11, 8] ++ [h / 256 % 256, h % 256,
        w / 256 % 256, w % 256] ++ [1, 1, 17, 0] ++
        [255, 218, 0, 8, 1, 1, 0, 0, 0, 0]) ++ compress_8bit data w 0) ++
        [255, 217]).getD 1 0 = 0xD8 := by
      rw [hshape]
      exact ⟨rfl, rfl⟩
    obtain ⟨buf, hdec, hblen, hbound⟩ := c2_decode_tail data _ w h 0
      hw hh hlen hbytes hnear (by simp) hsoi hparse
    exact ⟨_, buf, hencode.trans (by rw [hcreate]), hdec, hblen, hbound⟩
  · have hcreate : create_jls_codestream ⟨w, h, 8, 1, data, ph, sg⟩ near =
        (([255, 216, 255, 247, 0, 11, 8] ++ [h / 256 % 256, h % 256,
          w / 256 % 256, w % 256] ++ [1, 1, 17, 0] ++
          [255, 248, 0, 13, 1, 0, 255, 0, 3, 0, 7, 0, 21, 0, 64] ++
          [255, 218, 0, 8, 1, 1, 0] ++ [near] ++ [0, 0]) ++
          compress_8bit data w near) ++ [255, 217] := by
      rw [create_jls_codestream, if_pos hpos, hsof, hsos, hcmp,
        create_lse_segment]
      simp
    have hshape : (([255, 216, 255, 247, 0, 11, 8] ++ [h / 256 % 256,
        h % 256, w / 256 % 256, w % 256] ++ [1, 1, 17, 0] ++
        [255, 248, 0, 13, 1, 0, 255, 0, 3, 0, 7, 0, 21, 0, 64] ++
        [255, 218, 0, 8, 1, 1, 0] ++ [near] ++ [0, 0]) ++
        compress_8bit data w near) ++ [255, 217] =
        255 :: 216 :: 255 :: 247 :: 0 :: 11 :: 8 :: (h / 256 % 256) ::
        (h % 256) :: (w / 256 % 256) :: (w % 256) :: 1 :: 1 :: 17 :: 0 ::
        255 :: 248 :: 0 :: 13 :: 1 :: 0 :: 255 :: 0 :: 3 :: 0 :: 7 :: 0 ::
        21 :: 0 :: 64 ::
        255 :: 218 :: 0 :: 8 :: 1 :: 1 :: 0 :: near :: 0 :: 0 ::
        (compress_8bit data w near ++ [255, 217]) := by
      simp
    have hparse : parse_jls_header ((([255, 216, 255, 247, 0, 11, 8] ++
        [h / 256 % 256, h % 256, w / 256 % 256, w % 256] ++ [1, 1, 17, 0] ++
        [255, 248, 0, 13, 1, 0, 255, 0, 3, 0, 7, 0, 21, 0, 64] ++
        [255, 218, 0, 8, 1, 1, 0] ++ [near] ++ [0, 0]) ++
        compress_8bit data w near) ++ [255, 217]) =
        some (near, ([255, 216, 255, 247, 0, 11, 8] ++ [h / 256 % 256,
        h % 256, w / 256 % 256, w % 256] ++ [1, 1, 17, 0] ++
        [255, 248, 0, 13, 1, 0, 255, 0, 3, 0, 7, 0, 21, 0, 64] ++
        [255, 218, 0, 8, 1, 1, 0] ++ [near] ++ [0, 0] : List Nat).length) := by
      rw [hshape]
      exact parse_jls_stream_near (h / 256 % 256) (h % 256)
        (w / 256 % 256) (w % 256) near (compress_8bit data w near) (by omega)
    have hsoi : ((([255, 216, 255, 247, 0, 11, 8] ++ [h / 256 % 256,
        h % 256, w / 256 % 256, w % 256] ++ [1, 1, 17, 0] ++
        [255, 248, 0, 13, 1, 0, 255, 0, 3, 0, 7, 0, 21, 0, 64] ++
        [255, 218, 0, 8, 1, 1, 0] ++ [near] ++ [0, 0]) ++
        compress_8bit data w near) ++ [255, 217]).getD 0 0 = 0xFF ∧
        ((([255, 216, 255, 247, 0, 11, 8] ++ [h / 256 % 256, h % 256,
        w / 256 % 256, w % 256] ++ [1, 1, 17, 0] ++
        [255, 248, 0, 13, 1, 0, 255, 0, 3, 0, 7, 0, 21, 0, 64] ++
        [255, 218, 0, 8, 1, 1, 0] ++ [near] ++ [0, 0]) ++
        compress_8bit data w near) ++ [255, 217]).getD 1 0 = 0xD8 := by
      rw [hshape]
      exact ⟨rfl, rfl⟩
    obtain ⟨buf, hdec, hblen, hbound⟩ := c2_decode_tail data _ w h near
      hw hh hlen hbytes hnear (by simp) hsoi hparse
    exact ⟨_, buf, hencode.trans (by rw [hcreate]), hdec, hblen, hbound⟩


/-- C2 counterexample: for the 1×1 buffer `[0]` with tolerance `near = 1`,
the decoded sample is 255, so the claimed plain absolute-difference bound
`max |original − decoded| ≤ 2*near + 1 = 3` fails (the residual byte wraps
around the 8-bit range). -/
theorem c2_near_lossless_plain_bound_fails :
    (encode_jls ⟨1, 1, 8, 1, [0], "", false⟩
      ⟨.JpegLs, .NearLossless, none, 1, 1⟩).bind
      (fun e => decode_jls e 1 1 8 1) = .ok [255] ∧
    ¬(255 - 0 ≤ 2 * 1 + 1) := by decide

/-- C2 witness at a concrete 1×1 buffer with tolerance 2. -/
theorem c2_amended_near_lossless_cyclic_bound_witness :
    ∃ stream buf,
      encode_jls ⟨1, 1, 8, 1, [200], "", false⟩
        ⟨.JpegLs, .NearLossless, none, 1, 2⟩ = .ok stream ∧
      decode_jls stream 1 1 8 1 = .ok buf ∧
      buf.length = ([200] : List Nat).length ∧
      ∀ i, i < ([200] : List Nat).length →
        ((buf.getD i 0 + 256 - ([200] : List Nat).getD i 0) % 256 ≤ 2 ∨
         (([200] : List Nat).getD i 0 + 256 - buf.getD i 0) % 256 ≤ 2) :=
  c2_amended_near_lossless_cyclic_bound [200] 1 1 2 1 none "" false
    (by decide) (by decide) (by decide) (by decide) (by decide)

/-- C1 (code_bug): the lossless round trip `decode(encode(buffer))` fails on
the transform-container codec: for the well-formed 1×1 8-bit buffer `[0]` in
`Lossless` mode, the encoded payload's first byte is the first pixel `0 < 16`,
so `decode_j2k` takes the quantization branch, consumes that byte as
`quant_bits`, and returns the empty pixel vector instead of `[0]`.  The
repository's own `test_lossless_roundtrip` (a gradient starting at byte 0)
asserts exactly the property this violates. -/
theorem c1_lossless_roundtrip_fails_on_code :
    (encode_j2k ⟨1, 1, 8, 1, [0], "", false⟩
        ⟨.Jpeg2000, .Lossless, none, 1, 0⟩).bind
      (fun e => decode_j2k e 1 1 8 1) = .ok [] ∧
    ([] : List Nat) ≠ [0] ∧
    calculate_expected_size ⟨1, 1, 8, 1, [0], "", false⟩ = 1 := by
  decide

/-- C7: for each codec, `can_encode` returns true exactly when
`bits_per_sample` is at most the declared maximum and multi-component /
signed usage is within the declared support flags. -/
theorem c7_can_encode_iff : ∀ image : ImageData,
    (can_encode jpeg2000_capabilities image = true ↔
      (image.bits_per_sample ≤ jpeg2000_capabilities.max_bits_per_sample ∧
       (image.samples_per_pixel = 1 ∨
         jpeg2000_capabilities.supports_color = true) ∧
       (image.is_signed = true → jpeg2000_capabilities.supports_signed = true)))
    ∧
    (can_encode jpegls_capabilities image = true ↔
      (image.bits_per_sample ≤ jpegls_capabilities.max_bits_per_sample ∧
       (image.samples_per_pixel = 1 ∨
         jpegls_capabilities.supports_color = true) ∧
       (image.is_signed = true → jpegls_capabilities.supports_signed = true)))
    ∧
    (can_encode uncompressed_capabilities image = true ↔
      (image.bits_per_sample ≤ uncompressed_capabilities.max_bits_per_sample ∧
       (image.samples_per_pixel = 1 ∨
         uncompressed_capabilities.supports_color = true) ∧
       (image.is_signed = true →
         uncompressed_capabilities.supports_signed = true))) := by
  intro image
  refine ⟨?_, ?_, ?_⟩ <;>
    simp [can_encode, jpeg2000_capabilities, jpegls_capabilities,
      uncompressed_capabilities]

/-- C8: encode and decode are deterministic — structurally equal inputs
produce bit-identical results for every codec operation (each operation is a
pure function of its arguments). -/
theorem c8_determinism
    (i1 i2 : ImageData) (c1 c2 : CompressionConfig)
    (d1 d2 : List Nat) (w1 w2 h1 h2 b1 b2 s1 s2 : Nat)
    (hi : i1 = i2) (hc : c1 = c2) (hd : d1 = d2)
    (hw : w1 = w2) (hh : h1 = h2) (hb : b1 = b2) (hs : s1 = s2) :
    encode_j2k i1 c1 = encode_j2k i2 c2 ∧
    encode_jls i1 c1 = encode_jls i2 c2 ∧
    uncompressed_encode i1 c1 = uncompressed_encode i2 c2 ∧
    jpeg2000_decode d1 w1 h1 b1 s1 = jpeg2000_decode d2 w2 h2 b2 s2 ∧
    jpegls_decode d1 w1 h1 b1 s1 = jpegls_decode d2 w2 h2 b2 s2 ∧
    uncompressed_decode d1 w1 h1 b1 s1 = uncompressed_decode d2 w2 h2 b2 s2 := by
  subst hi hc hd hw hh hb hs
  exact ⟨rfl, rfl, rfl, rfl, rfl, rfl⟩

/-- C8 witness at a concrete input. -/
theorem c8_determinism_witness :
    encode_j2k ⟨2, 2, 8, 1, [16, 17, 18, 19], "", false⟩
        ⟨.Jpeg2000, .Lossless, none, 1, 0⟩ =
      encode_j2k ⟨2, 2, 8, 1, [16, 17, 18, 19], "", false⟩
        ⟨.Jpeg2000, .Lossless, none, 1, 0⟩ ∧
    encode_jls ⟨2, 2, 8, 1, [16, 17, 18, 19], "", false⟩
        ⟨.Jpeg2000, .Lossless, none, 1, 0⟩ =
      encode_jls ⟨2, 2, 8, 1, [16, 17, 18, 19], "", false⟩
        ⟨.Jpeg2000, .Lossless, none, 1, 0⟩ ∧
    uncompressed_encode ⟨2, 2, 8, 1, [16, 17, 18, 19], "", false⟩
        ⟨.Jpeg2000, .Lossless, none, 1, 0⟩ =
      uncompressed_encode ⟨2, 2, 8, 1, [16, 17, 18, 19], "", false⟩
        ⟨.Jpeg2000, .Lossless, none, 1, 0⟩ ∧
    jpeg2000_decode [255, 79, 255, 147, 32, 32, 255, 217] 1 2 8 1 =
      jpeg2000_decode [255, 79, 255, 147, 32, 32, 255, 217] 1 2 8 1 ∧
    jpegls_decode [255, 79, 255, 147, 32, 32, 255, 217] 1 2 8 1 =
      jpegls_decode [255, 79, 255, 147, 32, 32, 255, 217] 1 2 8 1 ∧
    uncompressed_decode [255, 79, 255, 147, 32, 32, 255, 217] 1 2 8 1 =
      uncompressed_decode [255, 79, 255, 147, 32, 32, 255, 217] 1 2 8 1 :=
  c8_determinism _ _ _ _ _ _ _ _ _ _ _ _ _ _ rfl rfl rfl rfl rfl rfl rfl

/-- C9: the transform-container decoder's expected-size comparison is only
logged, never returned: the raw decode result is entirely independent of the
requested `width`, `height` and `samples_per_pixel`, and a concrete decode
whose pixel length (2) differs from the declared geometry (100×100 = 10000)
still succeeds. -/
theorem c9_size_mismatch_only_logged :
    (∀ (data : List Nat) (w1 h1 s1 w2 h2 s2 bits : Nat),
      decode_j2k data w1 h1 bits s1 = decode_j2k data w2 h2 bits s2) ∧
    (jpeg2000_decode [255, 79, 255, 147, 32, 32, 255, 217] 100 100 8 1).map
        (fun buf => buf.pixel_data.length) = .ok 2 ∧
    calculate_expected_size ⟨100, 100, 8, 1, [], "", false⟩ = 10000 := by
  refine ⟨fun data w1 h1 s1 w2 h2 s2 bits => rfl, by decide, by decide⟩

/-- C10: every successful decode, for all three codecs, returns a buffer
with `is_signed = false` and an empty photometric interpretation string. -/
theorem c10_decode_metadata_reset
    (d1 d2 d3 : List Nat)
    (w1 h1 b1 s1 w2 h2 b2 s2 w3 h3 b3 s3 : Nat)
    (buf1 buf2 buf3 : ImageData)
    (ha : jpeg2000_decode d1 w1 h1 b1 s1 = .ok buf1)
    (hb : jpegls_decode d2 w2 h2 b2 s2 = .ok buf2)
    (hc : uncompressed_decode d3 w3 h3 b3 s3 = .ok buf3) :
    buf1.is_signed = false ∧ buf1.photometric_interpretation = "" ∧
    buf2.is_signed = false ∧ buf2.photometric_interpretation = "" ∧
    buf3.is_signed = false ∧ buf3.photometric_interpretation = "" := by
  refine ⟨?_, ?_, ?_, ?_, ?_, ?_⟩
  all_goals
    first
      | (cases hd : decode_j2k d1 w1 h1 b1 s1 with
          | error e => rw [jpeg2000_decode, hd] at ha; cases ha
          | ok v => rw [jpeg2000_decode, hd] at ha
                    cases ha
                    rfl)
      | (cases hd : decode_jls d2 w2 h2 b2 s2 with
          | error e => rw [jpegls_decode, hd] at hb; cases hb
          | ok v => rw [jpegls_decode, hd] at hb
                    cases hb
                    rfl)
      | (cases hc; rfl)

/-- C10 witness at concrete inputs on which all three decodes succeed. -/
theorem c10_decode_metadata_reset_witness :
    ∃ buf1 buf2 buf3 : ImageData,
      jpeg2000_decode [255, 79, 255, 147, 32, 32, 255, 217] 1 2 8 1 =
        .ok buf1 ∧
      jpegls_decode [255, 216, 255, 218, 0, 8, 1, 1, 0, 0, 0, 0, 42, 255, 217]
        1 1 8 1 = .ok buf2 ∧
      uncompressed_decode [1, 2, 3] 1 1 8 1 = .ok buf3 ∧
      buf1.is_signed = false ∧ buf1.photometric_interpretation = "" ∧
      buf2.is_signed = false ∧ buf2.photometric_interpretation = "" ∧
      buf3.is_signed = false ∧ buf3.photometric_interpretation = "" := by
  have h := c10_decode_metadata_reset
    [255, 79, 255, 147, 32, 32, 255, 217]
    [255, 216, 255, 218, 0, 8, 1, 1, 0, 0, 0, 0, 42, 255, 217]
    [1, 2, 3]
    1 2 8 1 1 1 8 1 1 1 8 1
    ⟨1, 2, 8, 1, [32, 64], "", false⟩
    ⟨1, 1, 8, 1, [170], "", false⟩
    ⟨1, 1, 8, 1, [1, 2, 3], "", false⟩
    (by decide) (by decide) (by decide)
  exact ⟨_, _, _, by decide, by decide, by decide, h⟩

/-- C6: for every buffer and config on which that codec's encode succeeds,
the transform-container codestream starts with `FF 4F` and ends with
`FF D9`, and the prediction-container codestream starts with `FF D8` and
ends with `FF D9` — the two conjuncts quantify over their inputs
independently, so each invariant covers all of its own codec's successes
(including prediction-container successes the transform-container encode
would reject). -/
theorem c6_marker_invariants :
    (∀ (image : ImageData) (config : CompressionConfig) (out : List Nat),
      encode_j2k image config = .ok out →
        out.take 2 = [0xFF, 0x4F] ∧
        out.drop (out.length - 2) = [0xFF, 0xD9]) ∧
    (∀ (image : ImageData) (config : CompressionConfig) (out : List Nat),
      encode_jls image config = .ok out →
        out.take 2 = [0xFF, 0xD8] ∧
        out.drop (out.length - 2) = [0xFF, 0xD9]) := by
  constructor
  · intro image config out h1
    rw [encode_j2k] at h1
    split_ifs at h1 <;> cases h1 <;>
      exact ⟨rfl, by
        rw [create_j2k_codestream]
        exact drop_length_sub_two _ _ _⟩
  · intro image config out h2
    rw [encode_jls] at h2
    split_ifs at h2 <;> cases h2 <;>
      exact ⟨rfl, by
        rw [create_jls_codestream]
        exact drop_length_sub_two _ _ _⟩

/-- C6 witness: the transform invariant at a 1×1 lossless encode, and the
prediction invariant at the undersized 4×4 buffer `[7]` — an input the
prediction-container encode accepts but the transform-container encode
rejects. -/
theorem c6_marker_invariants_witness :
    ([255, 79, 255, 81, 0, 41, 0, 0, 0, 0, 0, 1, 0, 0, 0, 1, 0, 0, 0, 0, 0, 0,
      0, 0, 0, 0, 0, 1, 0, 0, 0, 1, 0, 0, 0, 0, 0, 0, 0, 0, 0, 1, 7, 1, 1,
      255, 82, 0, 12, 0, 0, 0, 1, 0, 5, 4, 4, 0, 1, 255, 92, 0, 4, 34, 0, 255,
      144, 0, 11, 0, 0, 0, 0, 0, 11, 0, 1, 255, 147, 0, 255, 217] :
        List Nat).take 2 = [0xFF, 0x4F] ∧
    ([255, 79, 255, 81, 0, 41, 0, 0, 0, 0, 0, 1, 0, 0, 0, 1, 0, 0, 0, 0, 0, 0,
      0, 0, 0, 0, 0, 1, 0, 0, 0, 1, 0, 0, 0, 0, 0, 0, 0, 0, 0, 1, 7, 1, 1,
      255, 82, 0, 12, 0, 0, 0, 1, 0, 5, 4, 4, 0, 1, 255, 92, 0, 4, 34, 0, 255,
      144, 0, 11, 0, 0, 0, 0, 0, 11, 0, 1, 255, 147, 0, 255, 217] :
        List Nat).drop
      (([255, 79, 255, 81, 0, 41, 0, 0, 0, 0, 0, 1, 0, 0, 0, 1, 0, 0, 0, 0, 0,
        0, 0, 0, 0, 0, 0, 1, 0, 0, 0, 1, 0, 0, 0, 0, 0, 0, 0, 0, 0, 1, 7, 1,
        1, 255, 82, 0, 12, 0, 0, 0, 1, 0, 5, 4, 4, 0, 1, 255, 92, 0, 4, 34, 0,
        255, 144, 0, 11, 0, 0, 0, 0, 0, 11, 0, 1, 255, 147, 0, 255, 217] :
          List Nat).length - 2) = [0xFF, 0xD9] ∧
    ([255, 216, 255, 247, 0, 11, 8, 0, 4, 0, 4, 1, 1, 17, 0, 255, 218, 0, 8,
      1, 1, 0, 0, 0, 0, 255, 217] : List Nat).take 2 = [0xFF, 0xD8] ∧
    ([255, 216, 255, 247, 0, 11, 8, 0, 4, 0, 4, 1, 1, 17, 0, 255, 218, 0, 8,
      1, 1, 0, 0, 0, 0, 255, 217] : List Nat).drop
      (([255, 216, 255, 247, 0, 11, 8, 0, 4, 0, 4, 1, 1, 17, 0, 255, 218, 0,
        8, 1, 1, 0, 0, 0, 0, 255, 217] : List Nat).length - 2) =
      [0xFF, 0xD9] := by
  have h1 := c6_marker_invariants.1 ⟨1, 1, 8, 1, [0], "", false⟩
    ⟨.Jpeg2000, .Lossless, none, 1, 0⟩
    [255, 79, 255, 81, 0, 41, 0, 0, 0, 0, 0, 1, 0, 0, 0, 1, 0, 0, 0, 0, 0, 0,
      0, 0, 0, 0, 0, 1, 0, 0, 0, 1, 0, 0, 0, 0, 0, 0, 0, 0, 0, 1, 7, 1, 1,
      255, 82, 0, 12, 0, 0, 0, 1, 0, 5, 4, 4, 0, 1, 255, 92, 0, 4, 34, 0, 255,
      144, 0, 11, 0, 0, 0, 0, 0, 11, 0, 1, 255, 147, 0, 255, 217] (by decide)
  have h2 := c6_marker_invariants.2 ⟨4, 4, 8, 1, [7], "", false⟩
    ⟨.JpegLs, .Lossless, none, 1, 0⟩
    [255, 216, 255, 247, 0, 11, 8, 0, 4, 0, 4, 1, 1, 17, 0, 255, 218, 0, 8,
      1, 1, 0, 0, 0, 0, 255, 217] (by decide)
  exact ⟨h1.1, h1.2, h2.1, h2.2⟩

/-- C5: on any transform-container decode input with a valid SOC marker and a
payload located between the SOD scan position and the trailing bound, the
decoder dispatches to the inverse prefix sum (`lossless_decode`) exactly when
the first payload byte is at least 16, and otherwise to the shift-based
dequantization (`lossy_decode`), which consumes the first byte as
`quant_bits`. -/
theorem c5_decode_dispatch (data : List Nat) (width height bits spp : Nat)
    (hlen : 4 ≤ data.length)
    (hsoc : data.getD 0 0 = 0xFF ∧ data.getD 1 0 = 0x4F)
    (hpos : sod_scan data data.length 2 <
      (if 2 ≤ data.length ∧ data.getD (data.length - 2) 0 = 0xFF ∧
          data.getD (data.length - 1) 0 = 0xD9 then data.length - 2
        else data.length)) :
    (16 ≤ data.getD (sod_scan data data.length 2) 0 →
      decode_j2k data width height bits spp =
        .ok (lossless_decode
          ((data.drop (sod_scan data data.length 2)).take
            ((if 2 ≤ data.length ∧ data.getD (data.length - 2) 0 = 0xFF ∧
                data.getD (data.length - 1) 0 = 0xD9 then data.length - 2
              else data.length) - sod_scan data data.length 2)) bits)) ∧
    (data.getD (sod_scan data data.length 2) 0 < 16 →
      decode_j2k data width height bits spp =
        .ok (lossy_decode
          ((data.drop (sod_scan data data.length 2)).take
            ((if 2 ≤ data.length ∧ data.getD (data.length - 2) 0 = 0xFF ∧
                data.getD (data.length - 1) 0 = 0xD9 then data.length - 2
              else data.length) - sod_scan data data.length 2)) bits)) := by
  have hdend : (if 2 ≤ data.length ∧ data.getD (data.length - 2) 0 = 0xFF ∧
      data.getD (data.length - 1) 0 = 0xD9 then data.length - 2
    else data.length) ≤ data.length := by
    split_ifs <;> omega
  have hposlt : sod_scan data data.length 2 < data.length := by omega
  have hfirst : ((data.drop (sod_scan data data.length 2)).take
      ((if 2 ≤ data.length ∧ data.getD (data.length - 2) 0 = 0xFF ∧
          data.getD (data.length - 1) 0 = 0xD9 then data.length - 2
        else data.length) - sod_scan data data.length 2)).getD 0 0 =
      data.getD (sod_scan data data.length 2) 0 := by
    rw [getD_zero_take _ _ (by omega)]
    exact getD_zero_drop _ _ hposlt
  have hne : (data.drop (sod_scan data data.length 2)).take
      ((if 2 ≤ data.length ∧ data.getD (data.length - 2) 0 = 0xFF ∧
          data.getD (data.length - 1) 0 = 0xD9 then data.length - 2
        else data.length) - sod_scan data data.length 2) ≠ [] := by
    have hl : ((data.drop (sod_scan data data.length 2)).take
        ((if 2 ≤ data.length ∧ data.getD (data.length - 2) 0 = 0xFF ∧
            data.getD (data.length - 1) 0 = 0xD9 then data.length - 2
          else data.length) - sod_scan data data.length 2)).length =
        min ((if 2 ≤ data.length ∧ data.getD (data.length - 2) 0 = 0xFF ∧
            data.getD (data.length - 1) 0 = 0xD9 then data.length - 2
          else data.length) - sod_scan data data.length 2)
          ((data.drop (sod_scan data data.length 2)).length) := by
      rw [List.length_take]
    intro hnil
    rw [hnil] at hl
    rw [List.length_nil, List.length_drop] at hl
    omega
  constructor
  · intro h16
    simp only [decode_j2k]
    set pos := sod_scan data data.length 2 with hpos_eq
    set dend := (if 2 ≤ data.length ∧ data.getD (data.length - 2) 0 = 0xFF ∧
        data.getD (data.length - 1) 0 = 0xD9 then data.length - 2
      else data.length) with hdend_eq
    rw [if_neg (show ¬data.length < 4 by omega),
      if_neg (not_not_intro hsoc),
      if_neg (show ¬pos ≥ dend by omega)]
    rw [if_neg]
    intro hcond
    rw [hfirst] at hcond
    omega
  · intro hlt
    simp only [decode_j2k]
    set pos := sod_scan data data.length 2 with hpos_eq
    set dend := (if 2 ≤ data.length ∧ data.getD (data.length - 2) 0 = 0xFF ∧
        data.getD (data.length - 1) 0 = 0xD9 then data.length - 2
      else data.length) with hdend_eq
    rw [if_neg (show ¬data.length < 4 by omega),
      if_neg (not_not_intro hsoc),
      if_neg (show ¬pos ≥ dend by omega)]
    rw [if_pos]
    exact ⟨hne, by rw [hfirst]; exact hlt⟩

/-- C5 witness: a concrete stream whose first payload byte is 32 ≥ 16 is
routed to the inverse prefix sum. -/
theorem c5_decode_dispatch_witness :
    decode_j2k [255, 79, 255, 147, 32, 5, 255, 217] 1 2 8 1 =
      .ok [32, 37] := by
  have h := (c5_decode_dispatch [255, 79, 255, 147, 32, 5, 255, 217] 1 2 8 1
    (by decide) (by decide) (by decide)).1 (by decide)
  exact h.trans (by decide)

set_option maxRecDepth 4000 in
/-- C4 (code_bug): for a 64×64 8-bit single-component buffer, Lossy mode with
target ratio 10.0 yields a codestream of exactly 4179 bytes — an 82-byte
marker overhead plus a 4097-byte payload (one `quant_bits` byte plus one byte
per shifted sample), which is NOT strictly less than the 4096-byte source, in
contradiction with Scenario E and the repository's own
`test_lossy_compression` assertion. -/
theorem c4_lossy_encode_not_smaller (data : List Nat) (ph : String)
    (sg : Bool) (ql ne : Nat) (hlen : data.length = 4096) :
    encode_j2k ⟨64, 64, 8, 1, data, ph, sg⟩
        ⟨.Jpeg2000, .Lossy, some 10, ql, ne⟩ =
      .ok (create_j2k_codestream ⟨64, 64, 8, 1, data, ph, sg⟩
        ⟨.Jpeg2000, .Lossy, some 10, ql, ne⟩) ∧
    (create_j2k_codestream ⟨64, 64, 8, 1, data, ph, sg⟩
      ⟨.Jpeg2000, .Lossy, some 10, ql, ne⟩).length = 4179 ∧
    ¬((create_j2k_codestream ⟨64, 64, 8, 1, data, ph, sg⟩
        ⟨.Jpeg2000, .Lossy, some 10, ql, ne⟩).length < data.length) := by
  have hne : data ≠ [] := by
    intro hnil; rw [hnil] at hlen; cases hlen
  have hexp : calculate_expected_size ⟨64, 64, 8, 1, data, ph, sg⟩ = 4096 := by
    simp [calculate_expected_size]
  have hlength : (create_j2k_codestream ⟨64, 64, 8, 1, data, ph, sg⟩
      ⟨.Jpeg2000, .Lossy, some 10, ql, ne⟩).length = 4179 := by
    have hq : quant_bits_of_ratio ((some (10 : ℚ)).getD 10) = 1 := by
      simp [quant_bits_of_ratio]
    simp only [create_j2k_codestream, create_siz_segment, create_cod_segment,
      create_qcd_segment, compress_tile_data, lossy_encode,
      List.length_append, List.length_cons, List.length_map]
    simp [u16be, u32be, hlen, hq, List.replicate]
  refine ⟨?_, hlength, by rw [hlength, hlen]; omega⟩
  rw [encode_j2k, if_neg (by simp), if_neg (by simpa using hne), if_neg ?_]
  show ¬(data.length < calculate_expected_size ⟨64, 64, 8, 1, data, ph, sg⟩)
  rw [hexp, hlen]
  omega

/-- C4 witness at the all-zero 64×64 buffer. -/
theorem c4_lossy_encode_not_smaller_witness :
    encode_j2k ⟨64, 64, 8, 1, List.replicate 4096 0, "", false⟩
        ⟨.Jpeg2000, .Lossy, some 10, 1, 0⟩ =
      .ok (create_j2k_codestream ⟨64, 64, 8, 1, List.replicate 4096 0, "",
        false⟩ ⟨.Jpeg2000, .Lossy, some 10, 1, 0⟩) ∧
    (create_j2k_codestream ⟨64, 64, 8, 1, List.replicate 4096 0, "", false⟩
      ⟨.Jpeg2000, .Lossy, some 10, 1, 0⟩).length = 4179 ∧
    ¬((create_j2k_codestream ⟨64, 64, 8, 1, List.replicate 4096 0, "", false⟩
        ⟨.Jpeg2000, .Lossy, some 10, 1, 0⟩).length <
      (List.replicate 4096 0).length) :=
  c4_lossy_encode_not_smaller (List.replicate 4096 0) "" false 1 0
    (List.length_replicate 4096 0)

/-- C3 counterexample: a non-empty buffer strictly smaller than its declared
4×4 geometry is accepted by the prediction-container encode (the claim
demands an `ImageData` error). -/
theorem c3_undersized_buffer_not_rejected :
    (encode_jls ⟨4, 4, 8, 1, [7], "", false⟩
      ⟨.JpegLs, .Lossless, none, 1, 0⟩).isOk = true ∧
    ([7] : List Nat).length <
      calculate_expected_size ⟨4, 4, 8, 1, [7], "", false⟩ := by
  decide

/-- C3 amended: the prediction-container encode rejects zero dimensions and
empty pixel data with an `ImageData`-class error, and these are the only
inputs it rejects — unlike the transform-container encode, it performs no
undersized-buffer check. -/
theorem c3_amended_geometry_validation (image : ImageData)
    (config : CompressionConfig) :
    (∃ msg, encode_jls image config = .error (.ImageData msg)) ↔
      (image.width = 0 ∨ image.height = 0 ∨ image.pixel_data = []) := by
  rw [encode_jls]
  split_ifs with hA hB
  · constructor
    · intro _
      rcases hA with h | h
      · exact Or.inl h
      · exact Or.inr (Or.inl h)
    · intro _
      exact ⟨"Invalid image dimensions", rfl⟩
  · constructor
    · intro _
      exact Or.inr (Or.inr hB)
    · intro _
      exact ⟨"Empty pixel data", rfl⟩
  · constructor
    · rintro ⟨msg, hmsg⟩
      cases hmsg
    · intro h
      rcases h with h | h | h
      · exact absurd (Or.inl h) hA
      · exact absurd (Or.inr h) hA
      · exact absurd h hB

end MedImg
